import Mathlib

/-!
Verification development for the DishGenius tool-calling core.

The definitions below are a shallow embedding of the repository's tool
registry, tool implementations, tool-call executor and chat-turn
orchestrators.  JavaScript values flowing through the system are JSON
values (the message bodies are parsed JSON, tool arguments are
`JSON.parse`d strings, tool results are `JSON.stringify`ed), so the
embedding is built on a small inductive type of JSON values together
with executable models of `JSON.parse` and `JSON.stringify`.
-/

namespace DishGenius

/-- JSON values.  `obj` keeps the fields in insertion order, matching the
key ordering of JavaScript objects. -/
inductive Json where
  | null : Json
  | bool (b : Bool) : Json
  | num (q : Rat) : Json
  | str (s : String) : Json
  | arr (xs : List Json) : Json
  | obj (kvs : List (String × Json)) : Json
deriving Inhabited

/-- JavaScript truthiness of a JSON value: `null`, `false`, `0` and the
empty string are falsy, everything else (including `[]` and an empty
object) is truthy. -/
def Json.truthy : Json → Bool
  | .null => false
  | .bool b => b
  | .num q => decide (q.num ≠ 0)
  | .str s => !s.isEmpty
  | .arr _ => true
  | .obj _ => true

/-- Whether a JSON value is a string (`typeof v === "string"`). -/
def Json.isStr : Json → Bool
  | .str _ => true
  | _ => false

/-- Property read `v[k]` on a JSON value, `none` standing for the
JavaScript `undefined` that a missing property or a read on a
non-object yields. -/
def jsGetField : Json → String → Option Json
  | .obj kvs, k => (kvs.find? (fun p => p.1 == k)).map (fun p => p.2)
  | _, _ => none

/-- Value of a hexadecimal digit, if any. -/
def hexDigitVal (c : Char) : Option Nat :=
  if '0' ≤ c ∧ c ≤ '9' then some (c.toNat - '0'.toNat)
  else if 'a' ≤ c ∧ c ≤ 'f' then some (c.toNat - 'a'.toNat + 10)
  else if 'A' ≤ c ∧ c ≤ 'F' then some (c.toNat - 'A'.toNat + 10)
  else none

/-- Drop leading JSON whitespace. -/
def skipWs : List Char → List Char
  | [] => []
  | c :: rest =>
    if c = ' ' ∨ c = '\t' ∨ c = '\n' ∨ c = '\r' then skipWs rest else c :: rest

/-- Read the body of a JSON string after its opening quote, resolving
escape sequences; returns the decoded characters and the input that
follows the closing quote. -/
def strChars : List Char → Option (List Char × List Char)
  | [] => none
  | '"' :: rest => some ([], rest)
  | '\\' :: '"' :: rest => (strChars rest).map (fun p => ('"' :: p.1, p.2))
  | '\\' :: '\\' :: rest => (strChars rest).map (fun p => ('\\' :: p.1, p.2))
  | '\\' :: '/' :: rest => (strChars rest).map (fun p => ('/' :: p.1, p.2))
  | '\\' :: 'n' :: rest => (strChars rest).map (fun p => ('\n' :: p.1, p.2))
  | '\\' :: 't' :: rest => (strChars rest).map (fun p => ('\t' :: p.1, p.2))
  | '\\' :: 'r' :: rest => (strChars rest).map (fun p => ('\r' :: p.1, p.2))
  | '\\' :: 'b' :: rest => (strChars rest).map (fun p => ('\x08' :: p.1, p.2))
  | '\\' :: 'f' :: rest => (strChars rest).map (fun p => ('\x0c' :: p.1, p.2))
  | '\\' :: 'u' :: a :: b :: c :: d :: rest =>
    match hexDigitVal a, hexDigitVal b, hexDigitVal c, hexDigitVal d with
    | some ha, some hb, some hc, some hd =>
      (strChars rest).map
        (fun p => (Char.ofNat (((ha * 16 + hb) * 16 + hc) * 16 + hd) :: p.1, p.2))
    | _, _, _, _ => none
  | '\\' :: _ => none
  | c :: rest => (strChars rest).map (fun p => (c :: p.1, p.2))

/-- Decimal digit test. -/
def isDigitChar (c : Char) : Bool := '0' ≤ c && c ≤ '9'

/-- Split off a leading run of decimal digits. -/
def takeDigits : List Char → List Char × List Char
  | [] => ([], [])
  | c :: rest =>
    if isDigitChar c then
      let p := takeDigits rest
      (c :: p.1, p.2)
    else ([], c :: rest)

/-- Numeric value of a digit run. -/
def digitsToNat (ds : List Char) : Nat :=
  ds.foldl (fun acc c => acc * 10 + (c.toNat - '0'.toNat)) 0

/-- Parse an optional exponent part of a JSON number. -/
def parseExpPart (v : Rat) (cs : List Char) : Option (Rat × List Char) :=
  match cs with
  | 'e' :: rest =>
    let p : Bool × List Char :=
      match rest with
      | '+' :: r => (false, r)
      | '-' :: r => (true, r)
      | _ => (false, rest)
    match takeDigits p.2 with
    | ([], _) => none
    | (ds, r2) =>
      let e := digitsToNat ds
      some (if p.1 then v / ((10 : Rat) ^ e) else v * ((10 : Rat) ^ e), r2)
  | 'E' :: rest =>
    let p : Bool × List Char :=
      match rest with
      | '+' :: r => (false, r)
      | '-' :: r => (true, r)
      | _ => (false, rest)
    match takeDigits p.2 with
    | ([], _) => none
    | (ds, r2) =>
      let e := digitsToNat ds
      some (if p.1 then v / ((10 : Rat) ^ e) else v * ((10 : Rat) ^ e), r2)
  | _ => some (v, cs)

/-- Parse a JSON number. -/
def parseNumber (cs : List Char) : Option (Rat × List Char) :=
  let sp : Bool × List Char :=
    match cs with
    | '-' :: r => (true, r)
    | _ => (false, cs)
  match takeDigits sp.2 with
  | ([], _) => none
  | (ints, r1) =>
    let base : Rat := (digitsToNat ints : Nat)
    let withFrac : Option (Rat × List Char) :=
      match r1 with
      | '.' :: r =>
        match takeDigits r with
        | ([], _) => none
        | (fds, r2) =>
          some (base + (digitsToNat fds : Nat) / ((10 : Rat) ^ fds.length), r2)
      | _ => some (base, r1)
    match withFrac with
    | none => none
    | some (v1, r2) =>
      match parseExpPart v1 r2 with
      | none => none
      | some (v2, r3) => some ((if sp.1 then -v2 else v2), r3)

mutual

/-- Fuel-indexed parser for one JSON value. -/
def parseValue : Nat → List Char → Except String (Json × List Char)
  | 0, _ => .error "JSON value is nested too deeply"
  | fuel + 1, cs =>
    match skipWs cs with
    | [] => .error "Unexpected end of JSON input"
    | 'n' :: 'u' :: 'l' :: 'l' :: rest => .ok (.null, rest)
    | 't' :: 'r' :: 'u' :: 'e' :: rest => .ok (.bool true, rest)
    | 'f' :: 'a' :: 'l' :: 's' :: 'e' :: rest => .ok (.bool false, rest)
    | '"' :: rest =>
      match strChars rest with
      | some (body, r) => .ok (.str (String.mk body), r)
      | none => .error "Bad string in JSON"
    | '[' :: rest =>
      match skipWs rest with
      | ']' :: r => .ok (.arr [], r)
      | cs2 =>
        match parseElements fuel cs2 with
        | .ok (xs, r) => .ok (.arr xs, r)
        | .error e => .error e
    | '\x7b' :: rest =>
      match skipWs rest with
      | '\x7d' :: r => .ok (.obj [], r)
      | cs2 =>
        match parseMembers fuel cs2 with
        | .ok (kvs, r) => .ok (.obj kvs, r)
        | .error e => .error e
    | c :: rest =>
      if isDigitChar c ∨ c = '-' then
        match parseNumber (c :: rest) with
        | some (q, r) => .ok (.num q, r)
        | none => .error "Bad number in JSON"
      else .error ("Unexpected token " ++ String.mk [c] ++ " in JSON")

/-- Fuel-indexed parser for the elements of a non-empty JSON array,
including the closing bracket. -/
def parseElements : Nat → List Char → Except String (List Json × List Char)
  | 0, _ => .error "JSON value is nested too deeply"
  | fuel + 1, cs =>
    match parseValue fuel cs with
    | .error e => .error e
    | .ok (v, r) =>
      match skipWs r with
      | ',' :: r2 =>
        match parseElements fuel r2 with
        | .ok (vs, r3) => .ok (v :: vs, r3)
        | .error e => .error e
      | ']' :: r2 => .ok ([v], r2)
      | _ => .error "Expected comma or closing bracket in JSON array"

/-- Fuel-indexed parser for the members of a non-empty JSON object,
including the closing brace. -/
def parseMembers : Nat → List Char → Except String (List (String × Json) × List Char)
  | 0, _ => .error "JSON value is nested too deeply"
  | fuel + 1, cs =>
    match skipWs cs with
    | '"' :: rest =>
      match strChars rest with
      | none => .error "Bad string in JSON"
      | some (key, r) =>
        match skipWs r with
        | ':' :: r2 =>
          match parseValue fuel r2 with
          | .error e => .error e
          | .ok (v, r3) =>
            match skipWs r3 with
            | ',' :: r4 =>
              match parseMembers fuel r4 with
              | .ok (kvs, r5) => .ok ((String.mk key, v) :: kvs, r5)
              | .error e => .error e
            | '\x7d' :: r4 => .ok ([(String.mk key, v)], r4)
            | _ => .error "Expected comma or closing brace in JSON object"
        | _ => .error "Expected colon in JSON object"
    | _ => .error "Expected string key in JSON object"

end

/-- Model of the JavaScript `JSON.parse` builtin: parses a string into a
JSON value or fails with a parse-error message. -/
def parseJson (s : String) : Except String Json :=
  match parseValue (2 * s.length + 2) s.data with
  | .error e => .error e
  | .ok (v, rest) =>
    if (skipWs rest).isEmpty then .ok v
    else .error "Unexpected non-whitespace character after JSON data"

/-- Escape one character for a JSON string literal. -/
def escChar (c : Char) : String :=
  if c = '"' then "\\\""
  else if c = '\\' then "\\\\"
  else if c = '\n' then "\\n"
  else if c = '\t' then "\\t"
  else if c = '\r' then "\\r"
  else if c = '\x08' then "\\b"
  else if c = '\x0c' then "\\f"
  else String.mk [c]

/-- Escape a string for inclusion in JSON text. -/
def escapeJsonString (s : String) : String :=
  s.data.foldl (fun acc c => acc ++ escChar c) ""

mutual

/-- Model of the JavaScript `JSON.stringify` builtin on JSON values. -/
def jsonStringify : Json → String
  | .null => "null"
  | .bool true => "true"
  | .bool false => "false"
  | .num q => if q.den = 1 then toString q.num else toString q
  | .str s => "\"" ++ escapeJsonString s ++ "\""
  | .arr xs => "[" ++ stringifySepList xs ++ "]"
  | .obj kvs => "\x7b" ++ stringifySepKVs kvs ++ "\x7d"

/-- Comma-separated rendering of array elements. -/
def stringifySepList : List Json → String
  | [] => ""
  | [x] => jsonStringify x
  | x :: y :: rest => jsonStringify x ++ "," ++ stringifySepList (y :: rest)

/-- Comma-separated rendering of object members. -/
def stringifySepKVs : List (String × Json) → String
  | [] => ""
  | [(k, v)] => "\"" ++ escapeJsonString k ++ "\":" ++ jsonStringify v
  | (k, v) :: p :: rest =>
    "\"" ++ escapeJsonString k ++ "\":" ++ jsonStringify v ++ "," ++ stringifySepKVs (p :: rest)

end

/-- Whether the first list is a leading segment of the second. -/
def leadsWith : List Char → List Char → Bool
  | [], _ => true
  | _ :: _, [] => false
  | a :: as, b :: bs => a == b && leadsWith as bs

/-- Whether the needle occurs as a contiguous subsequence of the hay. -/
def containsSeq : List Char → List Char → Bool
  | hay, needle =>
    leadsWith needle hay ||
      (match hay with
       | [] => false
       | _ :: rest => containsSeq rest needle)

/-- Model of the JavaScript `String.prototype.includes` substring test
(the empty string is contained in every string). -/
def jsIncludes (s sub : String) : Bool :=
  containsSeq s.data sub.data

/-- Model of `String.prototype.toLowerCase` (ASCII range, which covers
every string in the embedded data). -/
def jsToLower (s : String) : String :=
  String.mk (s.data.map Char.toLower)

/-- Split a character stream at every occurrence of a separator
character (the JavaScript `String.prototype.split` with a one-character
separator). -/
def splitOnChar (sep : Char) : List Char → List (List Char)
  | [] => [[]]
  | c :: rest =>
    if c == sep then [] :: splitOnChar sep rest
    else
      match splitOnChar sep rest with
      | [] => [[c]]
      | g :: gs => (c :: g) :: gs

/-- JavaScript whitespace for `trim`. -/
def isJsWs (c : Char) : Bool :=
  c == ' ' || c == '\t' || c == '\n' || c == '\r' || c == '\x0c' || c == '\x0b'

/-- Drop leading whitespace characters. -/
def trimLeadChars : List Char → List Char
  | [] => []
  | c :: rest => if isJsWs c then trimLeadChars rest else c :: rest

/-- Model of `String.prototype.trim`. -/
def jsTrim (s : String) : String :=
  String.mk ((trimLeadChars (trimLeadChars s.data).reverse).reverse)

/-- Lexicographic order on character streams by code unit, the
comparison the JavaScript default `Array.prototype.sort` uses on
strings. -/
def charListLe : List Char → List Char → Bool
  | [], _ => true
  | _ :: _, [] => false
  | a :: as, b :: bs =>
    if a.toNat < b.toNat then true
    else if b.toNat < a.toNat then false
    else charListLe as bs

/-! ## Tool definitions and the tool registry (src/tools) -/

/-- A tool execution capability: an async function from the parsed
parameter object to a result value, where `.error` models a thrown
JavaScript exception carrying its message. -/
abbrev ExecuteFn := Json → Except String Json

/-- One property of a tool parameter schema (`type` may be a single type
name or a union list, as in `type: string | string[]`). -/
structure SchemaProperty where
  type : String ⊕ List String
  description : String
  enum : Option (List String) := none

/-- Embedding of `FunctionParameters` from src/tools/types.ts. -/
structure FunctionParameters where
  properties : List (String × SchemaProperty)
  required : List String
  additionalProperties : Bool

/-- Embedding of `FunctionDefinition` from src/tools/types.ts. -/
structure FunctionDefinition where
  name : String
  description : String
  parameters : FunctionParameters

/-- Embedding of `ToolDefinition` from src/tools/types.ts: the provider-facing schema
plus the local-only `execute` capability. -/
structure ToolDefinition where
  type : String := "function"
  function : FunctionDefinition
  execute : Option ExecuteFn := none

/-- The tool registry state: a JavaScript `Map` from tool name to tool
definition, modelled as an association list in insertion order. -/
abbrev Registry := List (String × ToolDefinition)

/-- JavaScript `Map.prototype.set`: overwrite the value in place when the
key is present (keeping its position), otherwise append a new entry. -/
def mapSet {α : Type} (m : List (String × α)) (k : String) (v : α) : List (String × α) :=
  if m.any (fun p => p.1 == k) then
    m.map (fun p => if p.1 == k then (k, v) else p)
  else m ++ [(k, v)]

/-- Function `registerTool` from the tool registry: `toolRegistry.set(tool.function.name, tool)`. -/
def registerTool (m : Registry) (tool : ToolDefinition) : Registry :=
  mapSet m tool.function.name tool

/-- Function `getTool` from the tool registry: `toolRegistry.get(name)`. -/
def getTool (m : Registry) (name : String) : Option ToolDefinition :=
  (m.find? (fun p => p.1 == name)).map (fun p => p.2)

/-- Function `getAllTools` from the tool registry: the registered definitions in
insertion order (`Array.from(toolRegistry.values())`). -/
def getAllTools (m : Registry) : List ToolDefinition :=
  m.map (fun p => p.2)

/-- Function `getToolDefinitions` from the tool registry: with no argument or an
empty name list it returns all tools; otherwise it maps each name through
the registry and filters out the names that were not found. -/
def getToolDefinitions (m : Registry) (toolNames : Option (List String)) : List ToolDefinition :=
  match toolNames with
  | none => getAllTools m
  | some names =>
    if names.isEmpty then getAllTools m
    else (names.map (getTool m)).reduceOption

/-- A provider-safe tool schema: a `ToolDefinition` with the `execute`
capability stripped. -/
structure ProviderTool where
  type : String
  function : FunctionDefinition

/-- Function `prepareToolsForOpenAI` from the chat route: drop `execute` from each
tool before sending the list to the provider. -/
def prepareToolsForOpenAI (tools : List ToolDefinition) : List ProviderTool :=
  tools.map (fun t => ⟨t.type, t.function⟩)

/-! ## The nutrition tool (src/tools/tools/nutritionInfo.ts) -/

/-- Build one nutrition database record. -/
def mkNutrition (calories : Rat) (protein carbs fiber sugar fat servingSize : String) :
    List (String × Json) :=
  [("calories", .num calories), ("protein", .str protein), ("carbs", .str carbs),
   ("fiber", .str fiber), ("sugar", .str sugar), ("fat", .str fat),
   ("servingSize", .str servingSize)]

/-- The mock nutrition database. -/
def nutritionDatabase : List (String × Json) :=
  [("apple", .obj (mkNutrition 95 "0.5g" "25g" "4g" "19g" "0.3g" "1 medium apple (182g)")),
   ("banana", .obj (mkNutrition 105 "1.3g" "27g" "3.1g" "14g" "0.4g" "1 medium banana (118g)")),
   ("chicken breast", .obj (mkNutrition 165 "31g" "0g" "0g" "0g" "3.6g" "100g (cooked)")),
   ("rice", .obj (mkNutrition 130 "2.7g" "28g" "0.4g" "0.1g" "0.3g" "100g (cooked)")),
   ("pasta", .obj (mkNutrition 158 "5.8g" "31g" "1.8g" "0.6g" "0.9g" "100g (cooked)"))]

/-- Insert a string into an already-sorted list. -/
def insertSorted (x : String) : List String → List String
  | [] => [x]
  | y :: rest => if charListLe x.data y.data then x :: y :: rest else y :: insertSorted x rest

/-- Model of the JavaScript default `Array.prototype.sort()` on string
arrays: lexicographic order by code units. -/
def sortStrings (l : List String) : List String :=
  l.foldr insertSorted []

/-- Replace the value of a field of a JSON object in place (the
JavaScript assignment `o[k] = v` on a copied object). -/
def setObjField (j : Json) (k : String) (v : Json) : Json :=
  match j with
  | .obj kvs =>
    .obj (if kvs.any (fun p => p.1 == k) then
            kvs.map (fun p => if p.1 == k then (k, v) else p)
          else kvs ++ [(k, v)])
  | _ => j

/-- The field list of a JSON object (empty for non-objects). -/
def objFields : Json → List (String × Json)
  | .obj kvs => kvs
  | _ => []

/-- First match of the regular expression `\((\d+)g\)` in a character
stream, returning the captured digit group as a number. -/
def findParenGrams : List Char → Option Nat
  | [] => none
  | '(' :: rest =>
    match takeDigits rest with
    | ([], _) => findParenGrams rest
    | (ds, r) =>
      match r with
      | 'g' :: ')' :: _ => some (digitsToNat ds)
      | _ => findParenGrams rest
  | _ :: rest => findParenGrams rest

/-- Strict JavaScript equality of a JSON value against a string literal. -/
def jsStrEq (v : Json) (s : String) : Bool :=
  match v with
  | .str t => t == s
  | _ => false

/-- Function `executeNutritionLookup` from nutritionInfo.ts. -/
def executeNutritionLookup (params : Json) : Except String Json :=
  match params with
  | .null => .error "TypeError: cannot destructure properties of null"
  | _ =>
    let unit : Json := (jsGetField params "unit").getD (.str "serving")
    match jsGetField params "food" with
    | some (.str food) =>
      let keys := nutritionDatabase.map (fun p => p.1)
      match keys.find? (fun k => jsToLower k == jsToLower food) with
      | none =>
        let suggestions :=
          (keys.filter (fun k =>
            jsIncludes (jsToLower k) (jsToLower food) ||
              jsIncludes (jsToLower food) (jsToLower k))).take 3
        .ok (.obj
          ([("error", .str ("Nutrition information for \"" ++ food ++ "\" not found.")),
            ("availableFoods", .arr ((sortStrings keys).map Json.str))]
           ++ (if suggestions.isEmpty then []
               else [("suggestions", .arr (suggestions.map Json.str))])))
      | some foodKey =>
        let nutritionData :=
          ((nutritionDatabase.find? (fun p => p.1 == foodKey)).map (fun p => p.2)).getD .null
        let servingSize :=
          match jsGetField nutritionData "servingSize" with
          | some (.str s) => s
          | _ => ""
        let adjusted? : Option Json :=
          if jsStrEq unit "100g" && jsIncludes servingSize "g" then
            match findParenGrams servingSize.data with
            | some servingGrams =>
              let calories : Rat :=
                match jsGetField nutritionData "calories" with
                | some (.num q) => q
                | _ => 0
              let newCalories := Rat.floor (calories * (100 / (servingGrams : Rat)) + 1 / 2)
              some (.obj
                ([("food", .str foodKey), ("unit", .str "100g"),
                  ("originalServing", .str servingSize)]
                 ++ objFields (setObjField nutritionData "calories" (.num newCalories))))
            | none => none
          else none
        match adjusted? with
        | some out => .ok out
        | none =>
          .ok (.obj ([("food", .str foodKey), ("unit", .str "serving")]
                     ++ objFields nutritionData))
    | _ => .error "TypeError: food.toLowerCase is not a function"

/-! ## The recipe lookup tool (src/tools/tools/nutritionInfo.ts, second module) -/

/-- One recipe of the mock database. -/
structure Recipe where
  name : String
  ingredients : List String
  instructions : String
  difficulty : String
  prepTime : String
  cookTime : String

/-- The mock recipe database. -/
def recipeDatabase : List Recipe :=
  [{ name := "Pasta Carbonara"
     ingredients := ["pasta", "eggs", "bacon", "cheese", "black pepper"]
     instructions := "1. Cook pasta. 2. Fry bacon. 3. Mix eggs and cheese. 4. Combine all ingredients with pasta. 5. Add black pepper."
     difficulty := "easy"
     prepTime := "10 minutes"
     cookTime := "15 minutes" },
   { name := "Veggie Stir Fry"
     ingredients := ["rice", "bell peppers", "broccoli", "carrots", "soy sauce", "garlic", "ginger"]
     instructions := "1. Cook rice. 2. Stir-fry vegetables with garlic and ginger. 3. Add soy sauce. 4. Serve over rice."
     difficulty := "easy"
     prepTime := "15 minutes"
     cookTime := "10 minutes" },
   { name := "Chocolate Chip Cookies"
     ingredients := ["flour", "butter", "sugar", "chocolate chips", "eggs", "vanilla extract"]
     instructions := "1. Cream butter and sugar. 2. Add eggs and vanilla. 3. Mix in flour. 4. Fold in chocolate chips. 5. Bake at 350°F for 10-12 minutes."
     difficulty := "medium"
     prepTime := "20 minutes"
     cookTime := "12 minutes" }]

/-- JSON encoding of a recipe, as returned inside the tool result. -/
def encodeRecipe (r : Recipe) : Json :=
  .obj [("name", .str r.name),
        ("ingredients", .arr (r.ingredients.map Json.str)),
        ("instructions", .str r.instructions),
        ("difficulty", .str r.difficulty),
        ("prepTime", .str r.prepTime),
        ("cookTime", .str r.cookTime)]

/-- The comma-separated ingredient list extracted from a lowercased query. -/
def requestedIngredients (searchTerm : String) : List String :=
  (splitOnChar ',' searchTerm.data).map (fun cs => jsTrim (String.mk cs))

/-- Ingredient-mode match: at least half of the requested ingredients
occur as a case-insensitive substring of some recipe ingredient
(`matchedIngredients.length >= ingredients.length / 2`). -/
def recipeMatchesIngredients (searchTerm : String) (r : Recipe) : Bool :=
  let ingredients := requestedIngredients searchTerm
  decide (ingredients.length ≤
    2 * (ingredients.filter (fun ing =>
      r.ingredients.any (fun ri => jsIncludes (jsToLower ri) ing))).length)

/-- Name-mode match: the lowercased recipe name contains the search term. -/
def recipeMatchesName (searchTerm : String) (r : Recipe) : Bool :=
  jsIncludes (jsToLower r.name) searchTerm

/-- Function `executeRecipeLookup` from nutritionInfo.ts. -/
def executeRecipeLookup (params : Json) : Except String Json :=
  match params with
  | .null => .error "TypeError: cannot destructure properties of null"
  | _ =>
    match jsGetField params "query" with
    | some (.str query) =>
      let filterByDifficulty := jsGetField params "filterByDifficulty"
      let searchTerm := jsToLower query
      let isIngredientSearch := jsIncludes searchTerm ","
      let results0 :=
        if isIngredientSearch then recipeDatabase.filter (recipeMatchesIngredients searchTerm)
        else recipeDatabase.filter (recipeMatchesName searchTerm)
      let results :=
        match filterByDifficulty with
        | some f =>
          if f.truthy then results0.filter (fun r : Recipe => jsStrEq f r.difficulty)
          else results0
        | none => results0
      .ok (.obj [("results", .arr (results.map encodeRecipe)),
                 ("query", .str query),
                 ("totalResults", .num (results.length : Rat)),
                 ("searchType", .str (if isIngredientSearch then "ingredients" else "recipe_name"))])
    | _ => .error "TypeError: query.toLowerCase is not a function"

/-! ## The tool-call executor (src chat route, `executeToolCalls`) -/

/-- The `function` part of a completions-convention tool call. -/
structure FunctionCall where
  name : String
  arguments : String

/-- A completions-convention tool-call request (`ToolCall` in
src/tools/types.ts): call identifier plus function name and raw
argument string. -/
structure ToolCall where
  id : String
  function : FunctionCall

/-- Embedding of `ToolResult` from src/tools/types.ts: on failure `result` is null and
`error` carries the message; on success `error` is absent. -/
structure ToolResult where
  id : String
  result : Json
  error : Option String := none

/-- Shared tail of both executor variants: resolve the tool in the
registry, run its `execute` capability, and turn a missing tool, a
missing capability, a thrown exception or a falsy result into the
per-call error result the source produces. -/
def runToolExecution (reg : Registry) (id toolName : String) (params : Json) : ToolResult :=
  match getTool reg toolName with
  | none => ⟨id, .null, some ("Tool not found: " ++ toolName)⟩
  | some tool =>
    match tool.execute with
    | none => ⟨id, .null, some ("No execute function found for tool: " ++ toolName)⟩
    | some f =>
      match f params with
      | .error msg => ⟨id, .null, some msg⟩
      | .ok result =>
        if result.truthy then ⟨id, result, none⟩
        else ⟨id, .null, some ("No execute function found for tool: " ++ toolName)⟩

/-- One mapped callback of the completions-variant `executeToolCalls`:
read `toolCall.function.name`, `JSON.parse` the raw argument string
(a failure yields the per-call invalid-arguments result), then execute. -/
def execOneToolCall (reg : Registry) (tc : ToolCall) : ToolResult :=
  match parseJson tc.function.arguments with
  | .error e => ⟨tc.id, .null, some ("Invalid tool arguments: " ++ e)⟩
  | .ok params => runToolExecution reg tc.id tc.function.name params

/-- The value `Promise.all` resolves to in `executeToolCalls`: one result
per request, in request order. -/
def executeToolCallsResolved (reg : Registry) (toolCalls : List ToolCall) : List ToolResult :=
  toolCalls.map (execOneToolCall reg)

/-- Result-slot write of the completion-order model: when the `i`-th
tool execution completes, its value is stored at slot `i`. -/
def writeSlot {α : Type} : List (Option α) → Nat → α → List (Option α)
  | [], _, _ => []
  | _ :: rest, 0, v => some v :: rest
  | o :: rest, n + 1, v => o :: writeSlot rest n v

/-- Run a completion schedule: `ord` lists the indices of the
asynchronous tool executions in the order they complete; each completion
writes its (index-determined) value into its own slot. -/
def runSched {α : Type} (xs : List α) : List Nat → List (Option α) → List (Option α)
  | [], slots => slots
  | i :: rest, slots =>
    runSched xs rest
      (match xs.get? i with
       | some v => writeSlot slots i v
       | none => slots)

/-- Read out the slot array once every execution completed. -/
def collectSlots {α : Type} : List (Option α) → Option (List α)
  | [] => some []
  | some v :: rest => (collectSlots rest).map (fun l => v :: l)
  | none :: _ => none

/-- Model of `Promise.all`: the promises complete in an arbitrary order
`ord`, each filling its own slot, and the combined promise resolves to
the slots in index order (`none` if some execution never completed,
which a covering schedule rules out). -/
def promiseAll {α : Type} (xs : List α) (ord : List Nat) : Option (List α) :=
  collectSlots (runSched xs ord (List.replicate xs.length none))

/-- Function `executeToolCalls` of the completions-variant chat route, with the
completion order of the concurrent per-call executions made explicit. -/
def executeToolCalls (reg : Registry) (toolCalls : List ToolCall) (ord : List Nat) :
    Option (List ToolResult) :=
  promiseAll (executeToolCallsResolved reg toolCalls) ord

/-- A responses-convention output item (`response.output[0]`): a
`function_call` item carries `name`/`arguments`/`id` at top level; the
executor of the responses variant also accepts the nested completions
shape as fallback. -/
structure OutputItem where
  type : String
  id : String := ""
  name : Option String := none
  arguments : Option String := none
  function : Option FunctionCall := none

/-- JavaScript `a || b` on possibly-undefined strings (the empty string
is falsy). -/
def jsOrStr (a b : Option String) : Option String :=
  match a with
  | some s => if s.isEmpty then b else some s
  | none => b

/-- One mapped callback of the responses-variant `executeToolCalls`:
`toolCall.name || toolCall.function?.name`, likewise for the arguments
(JSON.parse coerces a missing argument string to `"undefined"`). -/
def execOneToolCallR (reg : Registry) (tc : OutputItem) : ToolResult :=
  let toolName := jsOrStr tc.name (tc.function.map (fun f => f.name))
  match parseJson ((jsOrStr tc.arguments (tc.function.map (fun f => f.arguments))).getD "undefined") with
  | .error e => ⟨tc.id, .null, some ("Invalid tool arguments: " ++ e)⟩
  | .ok params =>
    match toolName with
    | none => ⟨tc.id, .null, some "Tool not found: undefined"⟩
    | some n => runToolExecution reg tc.id n params

/-! ## The chat-turn orchestrators (src chat route `POST`, both variants) -/

/-- The fold-back of one tool result into a conversation message:
`role: "tool"`, the originating call identifier, and the stringified
result or error payload as content. -/
def toolResultMessage (r : ToolResult) : Json :=
  let errVal := r.error.getD ""
  .obj [("role", .str "tool"),
        ("tool_call_id", .str r.id),
        ("content", .str (if errVal.isEmpty then jsonStringify r.result
                          else jsonStringify (.obj [("error", .str errVal)])))]

/-- The `toolResults.map(...)` fold-back: one `role: "tool"` message per
result, in result-list order. -/
def toolResultMessages (results : List ToolResult) : List Json :=
  results.map toolResultMessage

/-- A completions-convention assistant message: `content` (text or null)
and the requested tool calls (`[]` models an absent `tool_calls`). -/
structure AssistantMessage where
  content : Json := .null
  tool_calls : List ToolCall := []

/-- One element of `completion.choices`. -/
structure Choice where
  message : AssistantMessage

/-- A completions-convention provider reply. -/
structure ChatCompletion where
  choices : List Choice

/-- Outcome of one `openai.chat.completions.create` call: a reply, or a
thrown error with (`thrownRequest`) or without (`thrownOther`) a
`request` property. -/
inductive CompletionOutcome where
  | reply (c : ChatCompletion)
  | thrownRequest
  | thrownOther

/-- JSON encoding of a tool call as it appears on an assistant message. -/
def encodeToolCall (tc : ToolCall) : Json :=
  .obj [("id", .str tc.id), ("type", .str "function"),
        ("function", .obj [("name", .str tc.function.name),
                           ("arguments", .str tc.function.arguments)])]

/-- JSON encoding of a completions assistant message, as serialized by
`Response.json`. -/
def encodeAssistantMessage (am : AssistantMessage) : Json :=
  .obj ([("role", .str "assistant"), ("content", am.content)]
        ++ (if am.tool_calls.isEmpty then []
            else [("tool_calls", .arr (am.tool_calls.map encodeToolCall))]))

/-- An HTTP response: status code and JSON body. -/
structure HttpResponse where
  status : Nat
  body : Json

/-- Function `errorResponse` from the chat route. -/
def errorResponse (message : String) (status : Nat) : HttpResponse :=
  ⟨status, .obj [("error", .str message)]⟩

/-- Observable outcome of one `POST` handler run: the HTTP response and
how many provider completions were requested along the way. -/
structure TurnTrace where
  response : HttpResponse
  providerCalls : Nat

/-- Whether a field of a message object holds a string
(`typeof msg.k === "string"`; an absent field is `undefined`). -/
def fieldIsString (m : Json) (k : String) : Bool :=
  match jsGetField m k with
  | some v => v.isStr
  | none => false

/-- Test `msg.role === "tool"`. -/
def roleIsTool (m : Json) : Bool :=
  match jsGetField m "role" with
  | some (.str s) => s == "tool"
  | _ => false

/-- The per-message structural check of `isValidFormat` in both chat
route variants. -/
def validMessageFormat (m : Json) : Bool :=
  fieldIsString m "role" &&
  (fieldIsString m "content" || (roleIsTool m && fieldIsString m "tool_call_id"))

/-- Evaluate the per-message check as JavaScript does: reading a
property of a `null` element throws (caught by the outer handler). -/
def checkMessage (m : Json) : Except String Bool :=
  match m with
  | .null => .error "TypeError: Cannot read properties of null"
  | _ => .ok (validMessageFormat m)

/-- Evaluation of `messages.every(...)`: short-circuiting conjunction of the
per-message checks, propagating a thrown `TypeError`. -/
def validateMessages : List Json → Except String Bool
  | [] => .ok true
  | m :: rest =>
    match checkMessage m with
    | .error e => .error e
    | .ok false => .ok false
    | .ok true => validateMessages rest

/-- The completions-variant `POST` handler, with the provider modelled
as an oracle mapping (call index, outgoing messages) to an outcome.  The
request body is taken as already-parsed JSON (a body that fails
`request.json()` is caught and answered with the generic 500 upstream of
everything modelled here). -/
def POST_completions (apiKeyPresent : Bool) (reg : Registry)
    (provider : Nat → List Json → CompletionOutcome) (body : Json) : TurnTrace :=
  if !apiKeyPresent then
    ⟨errorResponse "Server configuration error: Missing API key." 500, 0⟩
  else
    match jsGetField body "messages" with
    | some (.arr msgs) =>
      if msgs.isEmpty then
        ⟨errorResponse "Invalid request body: messages array is required." 400, 0⟩
      else
        match validateMessages msgs with
        | .error _ => ⟨errorResponse "An error occurred while processing your request." 500, 0⟩
        | .ok false => ⟨errorResponse "Invalid message format." 400, 0⟩
        | .ok true =>
          let _tools := prepareToolsForOpenAI
            (getToolDefinitions reg (some ["lookupRecipe", "getNutritionInfo"]))
          match provider 0 msgs with
          | .thrownRequest => ⟨errorResponse "Could not reach OpenAI service." 500, 1⟩
          | .thrownOther => ⟨errorResponse "An error occurred while processing your request." 500, 1⟩
          | .reply c =>
            match c.choices.head? with
            | some ch =>
              if !ch.message.tool_calls.isEmpty then
                let toolResults := executeToolCallsResolved reg ch.message.tool_calls
                let updatedMessages :=
                  msgs ++ [encodeAssistantMessage ch.message] ++ toolResultMessages toolResults
                match provider 1 updatedMessages with
                | .thrownRequest => ⟨errorResponse "Could not reach OpenAI service." 500, 2⟩
                | .thrownOther =>
                  ⟨errorResponse "An error occurred while processing your request." 500, 2⟩
                | .reply c2 =>
                  match c2.choices.head? with
                  | none => ⟨errorResponse "Failed to get final response from OpenAI." 500, 2⟩
                  | some ch2 => ⟨⟨200, encodeAssistantMessage ch2.message⟩, 2⟩
              else if !ch.message.content.truthy then
                ⟨errorResponse "Failed to get response content from OpenAI." 500, 1⟩
              else ⟨⟨200, encodeAssistantMessage ch.message⟩, 1⟩
            | none => ⟨errorResponse "Failed to get response content from OpenAI." 500, 1⟩
    | _ => ⟨errorResponse "Invalid request body: messages array is required." 400, 0⟩

/-- A responses-convention provider reply: the `output` item list and
the convenience `output_text` field. -/
structure ResponsesReply where
  output : List OutputItem
  output_text : String

/-- Outcome of one `openai.responses.create` call. -/
inductive ResponsesOutcome where
  | reply (r : ResponsesReply)
  | thrownRequest
  | thrownOther

/-- The responses-variant `POST` handler (same validation, responses
call convention, and a normalization to `{role, content}` on the way
out). -/
def POST_responses (apiKeyPresent : Bool) (reg : Registry)
    (provider : Nat → List Json → ResponsesOutcome) (body : Json) : TurnTrace :=
  if !apiKeyPresent then
    ⟨errorResponse "Server configuration error: Missing API key." 500, 0⟩
  else
    match jsGetField body "messages" with
    | some (.arr msgs) =>
      if msgs.isEmpty then
        ⟨errorResponse "Invalid request body: messages array is required." 400, 0⟩
      else
        match validateMessages msgs with
        | .error _ => ⟨errorResponse "An error occurred while processing your request." 500, 0⟩
        | .ok false => ⟨errorResponse "Invalid message format." 400, 0⟩
        | .ok true =>
          let _tools := prepareToolsForOpenAI
            (getToolDefinitions reg (some ["lookupRecipe", "getNutritionInfo"]))
          match provider 0 msgs with
          | .thrownRequest => ⟨errorResponse "Could not reach OpenAI service." 500, 1⟩
          | .thrownOther => ⟨errorResponse "An error occurred while processing your request." 500, 1⟩
          | .reply r =>
            match r.output.head? with
            | some o =>
              if o.type == "function_call" then
                let toolResults := [execOneToolCallR reg o]
                let updatedMessages :=
                  msgs ++ [Json.obj [("role", .str "assistant"), ("content", .str r.output_text)]]
                       ++ toolResultMessages toolResults
                match provider 1 updatedMessages with
                | .thrownRequest => ⟨errorResponse "Could not reach OpenAI service." 500, 2⟩
                | .thrownOther =>
                  ⟨errorResponse "An error occurred while processing your request." 500, 2⟩
                | .reply r2 =>
                  if r2.output.head?.isNone || r2.output_text.isEmpty then
                    ⟨errorResponse "Failed to get final response from OpenAI." 500, 2⟩
                  else
                    ⟨⟨200, .obj [("role", .str "assistant"), ("content", .str r2.output_text)]⟩, 2⟩
              else if r.output_text.isEmpty then
                ⟨errorResponse "Failed to get response content from OpenAI." 500, 1⟩
              else ⟨⟨200, .obj [("role", .str "assistant"), ("content", .str r.output_text)]⟩, 1⟩
            | none => ⟨errorResponse "Failed to get response content from OpenAI." 500, 1⟩
    | _ => ⟨errorResponse "Invalid request body: messages array is required." 400, 0⟩

/-! ## The self-registered tool definitions -/

/-- The nutrition tool definition registered by nutritionInfo.ts. -/
def nutritionInfoTool : ToolDefinition :=
  { type := "function"
    function :=
      { name := "getNutritionInfo"
        description := "Get nutritional information for a food item"
        parameters :=
          { properties :=
              [("food", { type := .inl "string", description := "The food item to look up" }),
               ("unit", { type := .inr ["string", "null"],
                          description := "The unit of measurement",
                          enum := some ["100g", "serving", "piece"] })]
            required := ["food"]
            additionalProperties := false } }
    execute := some executeNutritionLookup }

/-- The recipe lookup tool definition registered by the recipe module. -/
def lookupRecipeTool : ToolDefinition :=
  { type := "function"
    function :=
      { name := "lookupRecipe"
        description := "Look up a recipe by name or ingredients"
        parameters :=
          { properties :=
              [("query", { type := .inl "string",
                           description := "Recipe name or a comma-separated list of ingredients" }),
               ("filterByDifficulty", { type := .inr ["string", "null"],
                                        description := "Filter recipes by difficulty level",
                                        enum := some ["easy", "medium", "hard"] })]
            required := ["query"]
            additionalProperties := false } }
    execute := some executeRecipeLookup }

/-! ## Registry lemmas -/

/-- Helper: when some key of `m` matches, the in-place overwrite is
found first by `find?`. -/
theorem find?_overwrite {α : Type} (k : String) (v : α) :
    ∀ m : List (String × α), m.any (fun p => p.1 == k) = true →
      (m.map (fun p => if p.1 == k then (k, v) else p)).find? (fun p => p.1 == k) = some (k, v) := by
  intro m
  induction m with
  | nil => intro h; simp at h
  | cons p rest ih =>
    intro h
    rw [List.any_cons] at h
    cases hp : (p.1 == k) with
    | true =>
      simp only [List.map_cons, if_pos hp]
      simp [List.find?_cons]
    | false =>
      have hr : rest.any (fun q => q.1 == k) = true := by
        rw [hp] at h; simpa using h
      have hfp : (if (p.1 == k) = true then (k, v) else p) = p :=
        if_neg (fun hh => Bool.false_ne_true (hp ▸ hh))
      rw [List.map_cons, hfp]
      simp only [List.find?_cons]
      rw [hp]
      exact ih hr

/-- Helper: when no key of `m` matches, `find?` reaches the appended
entry. -/
theorem find?_appended {α : Type} (k : String) (v : α) :
    ∀ m : List (String × α), m.any (fun p => p.1 == k) = false →
      (m ++ [(k, v)]).find? (fun p => p.1 == k) = some (k, v) := by
  intro m
  induction m with
  | nil => intro h; simp [List.find?_cons]
  | cons p rest ih =>
    intro h
    rw [List.any_cons] at h
    cases hp : (p.1 == k) with
    | true => rw [hp] at h; simp at h
    | false =>
      have hr : rest.any (fun q => q.1 == k) = false := by
        rw [hp] at h; simpa using h
      simp only [List.cons_append, List.find?_cons, hp]
      exact ih hr

/-- Lookup after `Map.set` of the same key yields the new
value. -/
theorem find?_mapSet {α : Type} (m : List (String × α)) (k : String) (v : α) :
    (mapSet m k v).find? (fun p => p.1 == k) = some (k, v) := by
  unfold mapSet
  cases hb : m.any (fun p => p.1 == k) with
  | true => simpa using find?_overwrite k v m hb
  | false => simpa using find?_appended k v m hb

/-- Overwriting `Map.set` of a present key does not change the map size. -/
theorem length_mapSet_of_present {α : Type} (m : List (String × α)) (k : String) (v : α)
    (h : m.any (fun p => p.1 == k) = true) :
    (mapSet m k v).length = m.length := by
  unfold mapSet
  rw [if_pos h, List.length_map]

/-- C7: registering a definition under a name the registry already holds
keeps the registry size at N (the entry is overwritten in place, no
error is raised — `registerTool` is a total function), and a subsequent
lookup of that name observes the newly registered definition. -/
theorem registerTool_overwrite (m : Registry) (d : ToolDefinition)
    (h : ∃ p ∈ m, p.1 = d.function.name) :
    (registerTool m d).length = m.length ∧
    getTool (registerTool m d) d.function.name = some d := by
  have hany : m.any (fun p => p.1 == d.function.name) = true := by
    rcases h with ⟨p, hp, hk⟩
    exact List.any_eq_true.2 ⟨p, hp, by simpa using hk⟩
  constructor
  · exact length_mapSet_of_present m d.function.name d hany
  · unfold getTool registerTool
    rw [find?_mapSet]
    rfl

/-- Witness for C7 at a concrete one-entry registry already holding the
key `"getNutritionInfo"`. -/
theorem registerTool_overwrite_witness :
    (∃ p ∈ ([("getNutritionInfo", lookupRecipeTool)] : Registry),
        p.1 = nutritionInfoTool.function.name) ∧
    (registerTool [("getNutritionInfo", lookupRecipeTool)] nutritionInfoTool).length = 1 ∧
    getTool (registerTool [("getNutritionInfo", lookupRecipeTool)] nutritionInfoTool)
        nutritionInfoTool.function.name = some nutritionInfoTool :=
  ⟨⟨("getNutritionInfo", lookupRecipeTool), by simp, rfl⟩,
   registerTool_overwrite [("getNutritionInfo", lookupRecipeTool)] nutritionInfoTool
     ⟨("getNutritionInfo", lookupRecipeTool), by simp, rfl⟩⟩

/-- C10: bulk lookup with no argument or with the empty name list falls
back to the full enumeration of the registry (every registered
definition, in insertion order), which is non-empty whenever the
registry is. -/
theorem getToolDefinitions_empty_enumerates (m : Registry) :
    getToolDefinitions m none = getAllTools m ∧
    getToolDefinitions m (some []) = getAllTools m ∧
    getAllTools m = m.map (fun p => p.2) ∧
    (m ≠ [] → getToolDefinitions m (some []) ≠ []) := by
  refine ⟨rfl, rfl, rfl, ?_⟩
  intro hm
  cases m with
  | nil => exact absurd rfl hm
  | cons p rest => simp [getToolDefinitions, getAllTools]

/-- Witness for C10 at a concrete one-entry registry. -/
theorem getToolDefinitions_empty_enumerates_witness :
    ([("lookupRecipe", lookupRecipeTool)] : Registry) ≠ [] ∧
    getToolDefinitions [("lookupRecipe", lookupRecipeTool)] (some []) ≠ [] :=
  ⟨by simp,
   (getToolDefinitions_empty_enumerates [("lookupRecipe", lookupRecipeTool)]).2.2.2 (by simp)⟩

/-- Counterexample for C4 as stated: on the empty name list the bulk
lookup does not return the (empty) list of definitions of the requested
names — it returns the full registry contents instead. -/
theorem getToolDefinitions_empty_list_counterexample :
    getToolDefinitions [("getNutritionInfo", nutritionInfoTool)] (some []) =
      [nutritionInfoTool] ∧
    getToolDefinitions [("getNutritionInfo", nutritionInfoTool)] (some []) ≠
      ([] : List ToolDefinition) := by
  refine ⟨rfl, ?_⟩
  intro h
  exact List.cons_ne_nil nutritionInfoTool [] h

/-- C4 (amended): for every NON-empty list of names, bulk lookup maps
each name through the registry in input-list order and silently drops
the names that are not registered; the empty list (like a missing
argument) instead returns the full enumeration. -/
theorem getToolDefinitions_ordered_lookup (m : Registry) (names : List String)
    (h : names ≠ []) :
    getToolDefinitions m (some names) = names.filterMap (getTool m) := by
  cases names with
  | nil => exact absurd rfl h
  | cons a l =>
    have h0 : getToolDefinitions m (some (a :: l)) =
        ((a :: l).map (getTool m)).reduceOption := rfl
    rw [h0]
    simp only [List.reduceOption, List.filterMap_map]
    rfl

/-- Witness for C4's amended statement: one registered and one
unregistered name, in a query order opposite to registry insertion
order. -/
theorem getToolDefinitions_ordered_lookup_witness :
    (["lookupRecipe", "absentTool", "getNutritionInfo"] : List String) ≠ [] ∧
    getToolDefinitions
        [("getNutritionInfo", nutritionInfoTool), ("lookupRecipe", lookupRecipeTool)]
        (some ["lookupRecipe", "absentTool", "getNutritionInfo"]) =
      ["lookupRecipe", "absentTool", "getNutritionInfo"].filterMap
        (getTool [("getNutritionInfo", nutritionInfoTool), ("lookupRecipe", lookupRecipeTool)]) :=
  ⟨by simp,
   getToolDefinitions_ordered_lookup
     [("getNutritionInfo", nutritionInfoTool), ("lookupRecipe", lookupRecipeTool)]
     ["lookupRecipe", "absentTool", "getNutritionInfo"] (by simp)⟩

/-! ## Executor lemmas -/

/-- Every branch of one executor callback returns a result tagged with
the originating call identifier. -/
theorem execOneToolCall_id (reg : Registry) (tc : ToolCall) :
    (execOneToolCall reg tc).id = tc.id := by
  cases hp : parseJson tc.function.arguments with
  | error e => simp [execOneToolCall, hp]
  | ok params =>
    cases hg : getTool reg tc.function.name with
    | none => simp [execOneToolCall, runToolExecution, hp, hg]
    | some tool =>
      cases he : tool.execute with
      | none => simp [execOneToolCall, runToolExecution, hp, hg, he]
      | some f =>
        cases hf : f params with
        | error m => simp [execOneToolCall, runToolExecution, hp, hg, he, hf]
        | ok r =>
          cases hr : r.truthy <;>
            simp [execOneToolCall, runToolExecution, hp, hg, he, hf, hr]

/-- C5: a request whose raw argument string fails to parse yields, at
its own position, the invalid-arguments error result with a null
payload, while every sibling call in the batch produces exactly the
results it would produce without the failing request (the executor is a
total function, so no exception escapes it). -/
theorem invalid_arguments_isolated (reg : Registry) (l1 l2 : List ToolCall)
    (tc : ToolCall) (e : String)
    (h : parseJson tc.function.arguments = .error e) :
    executeToolCallsResolved reg (l1 ++ tc :: l2) =
      executeToolCallsResolved reg l1
        ++ ⟨tc.id, .null, some ("Invalid tool arguments: " ++ e)⟩
          :: executeToolCallsResolved reg l2 ∧
    executeToolCallsResolved reg (l1 ++ l2) =
      executeToolCallsResolved reg l1 ++ executeToolCallsResolved reg l2 := by
  constructor
  · unfold executeToolCallsResolved
    rw [List.map_append, List.map_cons]
    have htc : execOneToolCall reg tc =
        ⟨tc.id, .null, some ("Invalid tool arguments: " ++ e)⟩ := by
      unfold execOneToolCall
      rw [h]
    rw [htc]
  · unfold executeToolCallsResolved
    rw [List.map_append]

/-- Witness for C5: a batch of one well-formed call and one call with
unparseable arguments. -/
theorem invalid_arguments_isolated_witness :
    parseJson "\x7b" = .error "Expected string key in JSON object" ∧
    (executeToolCallsResolved [("lookupRecipe", lookupRecipeTool)]
        ([⟨"call_ok", ⟨"lookupRecipe", "\x7b\"query\":\"stir fry\"\x7d"⟩⟩]
          ++ ⟨"call_bad", ⟨"lookupRecipe", "\x7b"⟩⟩ :: []) =
      executeToolCallsResolved [("lookupRecipe", lookupRecipeTool)]
          [⟨"call_ok", ⟨"lookupRecipe", "\x7b\"query\":\"stir fry\"\x7d"⟩⟩]
        ++ ⟨"call_bad", Json.null,
            some ("Invalid tool arguments: " ++ "Expected string key in JSON object")⟩
          :: executeToolCallsResolved [("lookupRecipe", lookupRecipeTool)] [] ∧
     executeToolCallsResolved [("lookupRecipe", lookupRecipeTool)]
        ([⟨"call_ok", ⟨"lookupRecipe", "\x7b\"query\":\"stir fry\"\x7d"⟩⟩] ++ []) =
      executeToolCallsResolved [("lookupRecipe", lookupRecipeTool)]
          [⟨"call_ok", ⟨"lookupRecipe", "\x7b\"query\":\"stir fry\"\x7d"⟩⟩]
        ++ executeToolCallsResolved [("lookupRecipe", lookupRecipeTool)] []) :=
  ⟨rfl,
   invalid_arguments_isolated [("lookupRecipe", lookupRecipeTool)]
     [⟨"call_ok", ⟨"lookupRecipe", "\x7b\"query\":\"stir fry\"\x7d"⟩⟩] []
     ⟨"call_bad", ⟨"lookupRecipe", "\x7b"⟩⟩ "Expected string key in JSON object" rfl⟩

/-- Counterexample for C6 as stated: a request whose tool name is
unregistered but whose argument string is also malformed yields the
invalid-arguments error, not the claimed "Tool not found" error — the
argument parse happens first. -/
theorem tool_not_found_counterexample :
    (execOneToolCall [] ⟨"call_9", ⟨"nope", "\x7b"⟩⟩).error =
      some ("Invalid tool arguments: Expected string key in JSON object") ∧
    (execOneToolCall [] ⟨"call_9", ⟨"nope", "\x7b"⟩⟩).error ≠
      some ("Tool not found: nope") := by
  refine ⟨rfl, ?_⟩
  intro hcontra
  have h2 : ("Invalid tool arguments: Expected string key in JSON object" : String)
      = "Tool not found: nope" := Option.some.inj hcontra
  exact absurd h2 (by decide)

/-- C6 (amended): for every request whose argument string does parse as
JSON and whose tool name is not registered, the executor returns the
"Tool not found" error result with a null payload (and, being a total
function, never throws); when the arguments are malformed the
invalid-arguments error takes precedence instead. -/
theorem tool_not_found_result (reg : Registry) (tc : ToolCall) (params : Json)
    (hp : parseJson tc.function.arguments = .ok params)
    (hn : getTool reg tc.function.name = none) :
    execOneToolCall reg tc =
      ⟨tc.id, .null, some ("Tool not found: " ++ tc.function.name)⟩ := by
  unfold execOneToolCall
  rw [hp]
  unfold runToolExecution
  rw [hn]

/-- Witness for C6's amended statement: well-formed empty-object
arguments, unregistered name. -/
theorem tool_not_found_result_witness :
    parseJson "\x7b\x7d" = .ok (.obj []) ∧
    getTool [] "nope" = none ∧
    execOneToolCall [] ⟨"call_7", ⟨"nope", "\x7b\x7d"⟩⟩ =
      ⟨"call_7", .null, some ("Tool not found: " ++ "nope")⟩ :=
  ⟨rfl, rfl, tool_not_found_result [] ⟨"call_7", ⟨"nope", "\x7b\x7d"⟩⟩ (.obj []) rfl rfl⟩

/-! ## `Promise.all` completion-order lemmas -/

/-- Writing a slot preserves the slot-array length. -/
theorem length_writeSlot {α : Type} (s : List (Option α)) (i : Nat) (v : α) :
    (writeSlot s i v).length = s.length := by
  induction s generalizing i with
  | nil => rfl
  | cons o rest ih =>
    cases i with
    | zero => rfl
    | succ n => simp [writeSlot, ih]

/-- The written slot holds the written value. -/
theorem get?_writeSlot_self {α : Type} (s : List (Option α)) (i : Nat) (v : α)
    (h : i < s.length) :
    (writeSlot s i v).get? i = some (some v) := by
  induction s generalizing i with
  | nil => simp at h
  | cons o rest ih =>
    cases i with
    | zero => rfl
    | succ n =>
      simp only [writeSlot, List.get?]
      exact ih n (by simpa using h)

/-- Other slots are untouched by a write. -/
theorem get?_writeSlot_ne {α : Type} (s : List (Option α)) (i j : Nat) (v : α)
    (h : j ≠ i) :
    (writeSlot s i v).get? j = s.get? j := by
  induction s generalizing i j with
  | nil => rfl
  | cons o rest ih =>
    cases i with
    | zero =>
      cases j with
      | zero => exact absurd rfl h
      | succ m => rfl
    | succ n =>
      cases j with
      | zero => rfl
      | succ m =>
        simp only [writeSlot, List.get?]
        exact ih n m (fun hh => h (by rw [hh]))

/-- Running a schedule preserves the slot-array length. -/
theorem length_runSched {α : Type} (xs : List α) (ord : List Nat) :
    ∀ s : List (Option α), (runSched xs ord s).length = s.length := by
  induction ord with
  | nil => intro s; rfl
  | cons i rest ih =>
    intro s
    cases hx : xs.get? i with
    | none => simp only [runSched, hx]; exact ih s
    | some v =>
      simp only [runSched, hx]
      rw [ih (writeSlot s i v), length_writeSlot]

/-- A slot whose index never completes keeps its initial value. -/
theorem get?_runSched_not_mem {α : Type} (xs : List α) (ord : List Nat) (j : Nat)
    (h : j ∉ ord) :
    ∀ s : List (Option α), (runSched xs ord s).get? j = s.get? j := by
  induction ord with
  | nil => intro s; rfl
  | cons i rest ih =>
    intro s
    have hji : j ≠ i := fun hh => h (by rw [hh]; exact List.mem_cons_self i rest)
    have hjr : j ∉ rest := fun hr => h (List.mem_cons_of_mem i hr)
    cases hx : xs.get? i with
    | none => simp only [runSched, hx]; exact ih hjr s
    | some v =>
      simp only [runSched, hx]
      rw [ih hjr (writeSlot s i v), get?_writeSlot_ne s i j v hji]

/-- A slot whose index completes somewhere in the schedule ends up
holding the value of the corresponding execution. -/
theorem get?_runSched_mem {α : Type} (xs : List α) (ord : List Nat) (j : Nat)
    (hj : j ∈ ord) (hjx : j < xs.length) :
    ∀ s : List (Option α), s.length = xs.length →
      (runSched xs ord s).get? j = (xs.get? j).map some := by
  induction ord with
  | nil => cases hj
  | cons i rest ih =>
    intro s hs
    by_cases hjr : j ∈ rest
    · cases hx : xs.get? i with
      | none => simp only [runSched, hx]; exact ih hjr s hs
      | some v =>
        simp only [runSched, hx]
        exact ih hjr (writeSlot s i v) (by rw [length_writeSlot]; exact hs)
    · have hji : j = i := by
        cases List.mem_cons.1 hj with
        | inl hh => exact hh
        | inr hh => exact absurd hh hjr
      subst hji
      cases hx : xs.get? j with
      | none =>
        exact absurd hx (by simp [List.get?_eq_none]; omega)
      | some v =>
        simp only [runSched, hx]
        rw [get?_runSched_not_mem xs rest j hjr (writeSlot s j v),
            get?_writeSlot_self s j v (by rw [hs]; exact hjx)]
        rfl

/-- Reading out fully-populated slots recovers the values. -/
theorem collectSlots_map_some {α : Type} (xs : List α) :
    collectSlots (xs.map some) = some xs := by
  induction xs with
  | nil => rfl
  | cons x rest ih => simp [collectSlots, ih]

/-- Resolution of `Promise.all` under any schedule that lets every execution complete
resolves to the results in request-index order, independent of the
completion order. -/
theorem promiseAll_covering {α : Type} (xs : List α) (ord : List Nat)
    (hord : ∀ j, j < xs.length → j ∈ ord) :
    promiseAll xs ord = some xs := by
  unfold promiseAll
  have hslots : runSched xs ord (List.replicate xs.length none) = xs.map some := by
    apply List.ext_get?
    intro j
    by_cases hj : j < xs.length
    · rw [get?_runSched_mem xs ord j (hord j hj) hj (List.replicate xs.length none)
            (by simp), List.get?_map]
    · have hlen : (runSched xs ord (List.replicate xs.length (none : Option α))).length =
          xs.length := by
        rw [length_runSched]; simp
      have h1 : (runSched xs ord (List.replicate xs.length (none : Option α))).get? j = none :=
        List.get?_eq_none.2 (by rw [hlen]; omega)
      have h2 : (xs.map some).get? j = none :=
        List.get?_eq_none.2 (by rw [List.length_map]; omega)
      rw [h1, h2]
  rw [hslots, collectSlots_map_some]

/-- The role field of a folded-back tool message. -/
theorem toolResultMessage_role (r : ToolResult) :
    jsGetField (toolResultMessage r) "role" = some (.str "tool") := rfl

/-- The correlation identifier of a folded-back tool message. -/
theorem toolResultMessage_id (r : ToolResult) :
    jsGetField (toolResultMessage r) "tool_call_id" = some (.str r.id) := rfl

/-- C1: under every completion schedule that lets each concurrent tool
execution finish, `executeToolCalls` resolves to one result per request
in original request order — the i-th result's id is the i-th request's
call identifier, independent of completion order — and the fold-back
produces one `role: "tool"` message per result, in that same order,
tagged with the originating call identifiers. -/
theorem executor_order_preserved (reg : Registry) (toolCalls : List ToolCall)
    (ord : List Nat) (hord : ∀ j, j < toolCalls.length → j ∈ ord) :
    executeToolCalls reg toolCalls ord = some (executeToolCallsResolved reg toolCalls) ∧
    (executeToolCallsResolved reg toolCalls).length = toolCalls.length ∧
    (∀ i, ((executeToolCallsResolved reg toolCalls).get? i).map ToolResult.id =
          (toolCalls.get? i).map ToolCall.id) ∧
    (toolResultMessages (executeToolCallsResolved reg toolCalls)).length =
      toolCalls.length ∧
    (∀ m ∈ toolResultMessages (executeToolCallsResolved reg toolCalls),
       jsGetField m "role" = some (.str "tool")) ∧
    (∀ i, ((toolResultMessages (executeToolCallsResolved reg toolCalls)).get? i).bind
            (fun m => jsGetField m "tool_call_id") =
          (toolCalls.get? i).map (fun tc => Json.str tc.id)) := by
  refine ⟨?_, ?_, ?_, ?_, ?_, ?_⟩
  · unfold executeToolCalls
    apply promiseAll_covering
    intro j hj
    rw [executeToolCallsResolved, List.length_map] at hj
    exact hord j hj
  · rw [executeToolCallsResolved, List.length_map]
  · intro i
    rw [executeToolCallsResolved, List.get?_map]
    cases toolCalls.get? i with
    | none => rfl
    | some tc => simp [execOneToolCall_id]
  · rw [toolResultMessages, executeToolCallsResolved, List.length_map, List.length_map]
  · intro m hm
    rw [toolResultMessages] at hm
    rcases List.mem_map.1 hm with ⟨r, _, hr⟩
    rw [← hr]
    exact toolResultMessage_role r
  · intro i
    rw [toolResultMessages, executeToolCallsResolved, List.get?_map, List.get?_map]
    cases toolCalls.get? i with
    | none => rfl
    | some tc =>
      show jsGetField (toolResultMessage (execOneToolCall reg tc)) "tool_call_id" = _
      rw [toolResultMessage_id, execOneToolCall_id]
      rfl

/-- Witness for C1: a two-request batch (one resolvable call, one
unknown tool) under the reversed completion schedule. -/
theorem executor_order_preserved_witness :
    (∀ j, j < ([⟨"call_a", ⟨"lookupRecipe", "\x7b\"query\":\"stir fry\"\x7d"⟩⟩,
                ⟨"call_b", ⟨"missingTool", "\x7b\x7d"⟩⟩] : List ToolCall).length →
       j ∈ [1, 0]) ∧
    executeToolCalls [("lookupRecipe", lookupRecipeTool)]
        [⟨"call_a", ⟨"lookupRecipe", "\x7b\"query\":\"stir fry\"\x7d"⟩⟩,
         ⟨"call_b", ⟨"missingTool", "\x7b\x7d"⟩⟩] [1, 0] =
      some (executeToolCallsResolved [("lookupRecipe", lookupRecipeTool)]
        [⟨"call_a", ⟨"lookupRecipe", "\x7b\"query\":\"stir fry\"\x7d"⟩⟩,
         ⟨"call_b", ⟨"missingTool", "\x7b\x7d"⟩⟩]) :=
  ⟨by decide,
   (executor_order_preserved [("lookupRecipe", lookupRecipeTool)]
      [⟨"call_a", ⟨"lookupRecipe", "\x7b\"query\":\"stir fry\"\x7d"⟩⟩,
       ⟨"call_b", ⟨"missingTool", "\x7b\x7d"⟩⟩] [1, 0] (by decide)).1⟩

/-! ## Tool behavior claims -/

/-- The result object `executeRecipeLookup` returns: the matched
recipes, the original query, the match count, and the search mode. -/
def recipeLookupPayload (results : List Recipe) (query searchType : String) : Json :=
  .obj [("results", .arr (results.map encodeRecipe)),
        ("query", .str query),
        ("totalResults", .num (results.length : Rat)),
        ("searchType", .str (searchType))]

/-- Evaluation of the recipe lookup on a query-only parameter object:
mode and result set are decided by whether the lowercased query contains
a comma. -/
theorem executeRecipeLookup_query (q : String) :
    executeRecipeLookup (.obj [("query", .str q)]) =
      .ok (recipeLookupPayload
        (if jsIncludes (jsToLower q) "," then
           recipeDatabase.filter (recipeMatchesIngredients (jsToLower q))
         else recipeDatabase.filter (recipeMatchesName (jsToLower q)))
        q
        (if jsIncludes (jsToLower q) "," then "ingredients" else "recipe_name")) := by
  have h1 : jsGetField (Json.obj [("query", Json.str q)]) "query" = some (.str q) := rfl
  have h2 : jsGetField (Json.obj [("query", Json.str q)]) "filterByDifficulty" = none := rfl
  cases hq : jsIncludes (jsToLower q) "," <;>
    simp [executeRecipeLookup, recipeLookupPayload, h1, h2, hq]

/-- C8: the recipe lookup searches by ingredients exactly when the
query contains a comma — keeping the recipes for which at least half of
the comma-separated requested ingredients occur as a case-insensitive
substring of some recipe ingredient (`recipeMatchesIngredients`) — and
otherwise by case-insensitive substring on the recipe name
(`recipeMatchesName`); in particular `"eggs, bacon, pasta"` finds
exactly "Pasta Carbonara" in ingredients mode and `"stir fry"` finds
exactly "Veggie Stir Fry" in name mode. -/
theorem recipe_lookup_modes :
    (∀ q : String, jsIncludes (jsToLower q) "," = true →
       executeRecipeLookup (.obj [("query", .str q)]) =
         .ok (recipeLookupPayload
           (recipeDatabase.filter (recipeMatchesIngredients (jsToLower q))) q "ingredients")) ∧
    (∀ q : String, jsIncludes (jsToLower q) "," = false →
       executeRecipeLookup (.obj [("query", .str q)]) =
         .ok (recipeLookupPayload
           (recipeDatabase.filter (recipeMatchesName (jsToLower q))) q "recipe_name")) ∧
    (∃ out rs, executeRecipeLookup (.obj [("query", .str "eggs, bacon, pasta")]) = .ok out ∧
       jsGetField out "searchType" = some (.str "ingredients") ∧
       jsGetField out "results" = some (.arr rs) ∧
       rs.map (fun r => jsGetField r "name") = [some (.str "Pasta Carbonara")]) ∧
    (∃ out rs, executeRecipeLookup (.obj [("query", .str "stir fry")]) = .ok out ∧
       jsGetField out "searchType" = some (.str "recipe_name") ∧
       jsGetField out "results" = some (.arr rs) ∧
       rs.map (fun r => jsGetField r "name") = [some (.str "Veggie Stir Fry")]) := by
  refine ⟨?_, ?_, ?_, ?_⟩
  · intro q hq
    rw [executeRecipeLookup_query, hq]
    simp
  · intro q hq
    rw [executeRecipeLookup_query, hq]
    simp
  · exact ⟨_, _, rfl, rfl, rfl, rfl⟩
  · exact ⟨_, _, rfl, rfl, rfl, rfl⟩

/-- Witness for C8's two quantified mode statements at the example
queries. -/
theorem recipe_lookup_modes_witness :
    jsIncludes (jsToLower "eggs, bacon, pasta") "," = true ∧
    executeRecipeLookup (.obj [("query", .str "eggs, bacon, pasta")]) =
      .ok (recipeLookupPayload
        (recipeDatabase.filter (recipeMatchesIngredients (jsToLower "eggs, bacon, pasta")))
        "eggs, bacon, pasta" "ingredients") ∧
    jsIncludes (jsToLower "stir fry") "," = false ∧
    executeRecipeLookup (.obj [("query", .str "stir fry")]) =
      .ok (recipeLookupPayload
        (recipeDatabase.filter (recipeMatchesName (jsToLower "stir fry")))
        "stir fry" "recipe_name") :=
  ⟨rfl, recipe_lookup_modes.1 "eggs, bacon, pasta" rfl,
   rfl, recipe_lookup_modes.2.1 "stir fry" rfl⟩

/-- C9: the nutrition tool called with `{food: "apple"}` — with no unit
or with unit `"serving"` — resolves to an object carrying
`calories: 95` and `servingSize: "1 medium apple (182g)"`; called with
`{food: "kiwi"}` it still resolves (no throw) to an error-shaped object
whose `availableFoods` lists the database's food names. -/
theorem nutrition_lookup_examples :
    (∃ out : Json,
       executeNutritionLookup (.obj [("food", .str "apple")]) = .ok out ∧
       executeNutritionLookup (.obj [("food", .str "apple"), ("unit", .str "serving")]) =
         .ok out ∧
       jsGetField out "calories" = some (.num 95) ∧
       jsGetField out "servingSize" = some (.str "1 medium apple (182g)")) ∧
    (∃ out : Json,
       executeNutritionLookup (.obj [("food", .str "kiwi")]) = .ok out ∧
       jsGetField out "error" =
         some (.str "Nutrition information for \"kiwi\" not found.") ∧
       jsGetField out "availableFoods" =
         some (.arr [.str "apple", .str "banana", .str "chicken breast",
                     .str "pasta", .str "rice"])) := by
  exact ⟨⟨_, rfl, rfl, rfl, rfl⟩, ⟨_, rfl, rfl, rfl⟩⟩

/-! ## Orchestrator claims -/

/-- A message whose role strictly equals `"tool"` has a string-typed
role field. -/
theorem fieldIsString_role_of_tool (m : Json) (h : roleIsTool m = true) :
    fieldIsString m "role" = true := by
  unfold roleIsTool at h
  unfold fieldIsString
  cases hg : jsGetField m "role" with
  | none => simp [hg] at h
  | some v => cases v <;> simp_all [Json.isStr]

/-- A role-"tool" message with neither string content nor a string
tool_call_id fails the structural check. -/
theorem validMessageFormat_bad (m : Json) (hrole : roleIsTool m = true)
    (hcontent : fieldIsString m "content" = false)
    (hid : fieldIsString m "tool_call_id" = false) :
    validMessageFormat m = false := by
  unfold validMessageFormat
  rw [fieldIsString_role_of_tool m hrole, hcontent, hrole, hid]
  rfl

/-- Check `messages.every` returns false when some element fails the check and
no element is null (a null element would throw instead). -/
theorem validateMessages_of_invalid (msgs : List Json)
    (hnonull : ∀ m ∈ msgs, m ≠ Json.null)
    (h : ∃ m ∈ msgs, validMessageFormat m = false) :
    validateMessages msgs = .ok false := by
  induction msgs with
  | nil => rcases h with ⟨m, hm, _⟩; cases hm
  | cons m rest ih =>
    have hm : m ≠ Json.null := hnonull m (List.mem_cons_self m rest)
    have hc : checkMessage m = .ok (validMessageFormat m) := by
      cases m with
      | null => exact absurd rfl hm
      | bool b => rfl
      | num q => rfl
      | str s => rfl
      | arr xs => rfl
      | obj kvs => rfl
    cases hv : validMessageFormat m with
    | false => simp [validateMessages, hc, hv]
    | true =>
      have hrest : ∃ x ∈ rest, validMessageFormat x = false := by
        rcases h with ⟨x, hx, hxf⟩
        cases List.mem_cons.1 hx with
        | inl he => rw [he] at hxf; rw [hxf] at hv; cases hv
        | inr hr => exact ⟨x, hr, hxf⟩
      have ihr := ih (fun x hx => hnonull x (List.mem_cons_of_mem m hx)) hrest
      simp [validateMessages, hc, hv, ihr]

/-- Counterexample for C2 as stated: a role-"tool" message carrying
string content but no toolCallId passes validation, so the handler does
not reject it — it proceeds to the provider and returns its reply as
200. -/
theorem toolCallId_validation_counterexample :
    (POST_completions true []
        (fun _ _ => .reply ⟨[⟨⟨.str "hello", []⟩⟩]⟩)
        (.obj [("messages",
                .arr [.obj [("role", .str "tool"), ("content", .str "tool output")]])])
      ).providerCalls = 1 ∧
    (POST_completions true []
        (fun _ _ => .reply ⟨[⟨⟨.str "hello", []⟩⟩]⟩)
        (.obj [("messages",
                .arr [.obj [("role", .str "tool"), ("content", .str "tool output")]])])
      ).response.status = 200 := ⟨rfl, rfl⟩

/-- C2 (amended): both handler variants reject with 400 "Invalid
message format." — before any provider call — every history containing a
role-"tool" message that lacks a string toolCallId, *provided that
message also lacks string content* (a tool message with string content
and no toolCallId passes validation); no message may be null, since a
null element makes the `every` callback throw (a generic 500) instead. -/
theorem missing_toolCallId_rejected (reg : Registry) (body : Json) (msgs : List Json)
    (provC : Nat → List Json → CompletionOutcome)
    (provR : Nat → List Json → ResponsesOutcome)
    (hbody : jsGetField body "messages" = some (.arr msgs))
    (hnonull : ∀ m ∈ msgs, m ≠ Json.null)
    (hbad : ∃ m ∈ msgs, roleIsTool m = true ∧ fieldIsString m "tool_call_id" = false ∧
              fieldIsString m "content" = false) :
    POST_completions true reg provC body = ⟨errorResponse "Invalid message format." 400, 0⟩ ∧
    POST_responses true reg provR body = ⟨errorResponse "Invalid message format." 400, 0⟩ := by
  have hval : validateMessages msgs = .ok false := by
    apply validateMessages_of_invalid msgs hnonull
    rcases hbad with ⟨m, hm, h1, h2, h3⟩
    exact ⟨m, hm, validMessageFormat_bad m h1 h3 h2⟩
  have hne : msgs.isEmpty = false := by
    rcases hbad with ⟨m, hm, _⟩
    cases msgs with
    | nil => cases hm
    | cons a l => rfl
  constructor
  · simp [POST_completions, hbody, hne, hval]
  · simp [POST_responses, hbody, hne, hval]

/-- Witness for C2's amended statement: a single tool message with no
content and no toolCallId is rejected by both variants with 400 and
zero provider calls. -/
theorem missing_toolCallId_rejected_witness :
    POST_completions true [] (fun _ _ => .thrownOther)
        (.obj [("messages", .arr [.obj [("role", .str "tool")]])]) =
      ⟨errorResponse "Invalid message format." 400, 0⟩ ∧
    POST_responses true [] (fun _ _ => .thrownOther)
        (.obj [("messages", .arr [.obj [("role", .str "tool")]])]) =
      ⟨errorResponse "Invalid message format." 400, 0⟩ :=
  missing_toolCallId_rejected [] (.obj [("messages", .arr [.obj [("role", .str "tool")]])])
    [.obj [("role", .str "tool")]] (fun _ _ => .thrownOther) (fun _ _ => .thrownOther)
    rfl
    (fun m hm => by
      rw [List.mem_singleton] at hm
      rw [hm]
      intro hcon
      exact Json.noConfusion hcon)
    ⟨.obj [("role", .str "tool")], List.mem_singleton.2 rfl, rfl, rfl, rfl⟩

/-- A first provider reply whose message carries this tool call drives
the handler into the tool-dispatch round. -/
def c3ToolCall : ToolCall := ⟨"call_1", ⟨"missingTool", "\x7b\x7d"⟩⟩

/-- A provider whose every completion is an assistant message with null
content that requests a tool call. -/
def c3NoContentProvider : Nat → List Json → CompletionOutcome :=
  fun _ _ => .reply ⟨[⟨⟨.null, [c3ToolCall]⟩⟩]⟩

/-- A single-user-message request body. -/
def c3Body : Json :=
  .obj [("messages", .arr [.obj [("role", .str "user"), ("content", .str "hi")]])]

/-- Counterexample for C3 as stated: the second completion yields a
message with no usable text content (null content, and again requesting
tools), yet the completions orchestrator returns it as the 200 assistant
message — it never checks the second message's content and does not
produce the claimed 500 — while still making exactly two provider
calls. -/
theorem second_round_no_content_counterexample :
    (POST_completions true [] c3NoContentProvider c3Body).providerCalls = 2 ∧
    (POST_completions true [] c3NoContentProvider c3Body).response.status = 200 ∧
    (POST_completions true [] c3NoContentProvider c3Body).response.body =
      encodeAssistantMessage ⟨.null, [c3ToolCall]⟩ :=
  ⟨rfl, rfl, rfl⟩

/-- C3 (amended): after a tool-dispatch round both orchestrator
variants make exactly one second provider completion and never recurse
into a further dispatch, whatever the second reply requests.  If the
second completion throws, or (completions variant) carries no message,
or (responses variant) carries no output item or empty output text, the
turn ends in an HTTP 500 error object; but the completions variant
returns whatever message the second completion carries — even one with
no usable text content — as the 200 response. -/
theorem one_tool_round_only :
    (∀ (reg : Registry) (provider : Nat → List Json → CompletionOutcome) (body : Json)
       (msgs : List Json) (c1 : ChatCompletion) (ch1 : Choice) (out2 : CompletionOutcome),
       jsGetField body "messages" = some (.arr msgs) →
       msgs ≠ [] →
       validateMessages msgs = .ok true →
       (∀ ms, provider 0 ms = .reply c1) →
       c1.choices.head? = some ch1 →
       ch1.message.tool_calls ≠ [] →
       (∀ ms, provider 1 ms = out2) →
       (POST_completions true reg provider body).providerCalls = 2 ∧
       (out2 = .thrownRequest ∨ out2 = .thrownOther →
         (POST_completions true reg provider body).response.status = 500) ∧
       (∀ c2, out2 = .reply c2 → c2.choices.head? = none →
         POST_completions true reg provider body =
           ⟨errorResponse "Failed to get final response from OpenAI." 500, 2⟩) ∧
       (∀ c2 ch2, out2 = .reply c2 → c2.choices.head? = some ch2 →
         POST_completions true reg provider body =
           ⟨⟨200, encodeAssistantMessage ch2.message⟩, 2⟩)) ∧
    (∀ (reg : Registry) (provider : Nat → List Json → ResponsesOutcome) (body : Json)
       (msgs : List Json) (r1 : ResponsesReply) (o1 : OutputItem) (out2 : ResponsesOutcome),
       jsGetField body "messages" = some (.arr msgs) →
       msgs ≠ [] →
       validateMessages msgs = .ok true →
       (∀ ms, provider 0 ms = .reply r1) →
       r1.output.head? = some o1 →
       o1.type = "function_call" →
       (∀ ms, provider 1 ms = out2) →
       (POST_responses true reg provider body).providerCalls = 2 ∧
       (out2 = .thrownRequest ∨ out2 = .thrownOther →
         (POST_responses true reg provider body).response.status = 500) ∧
       (∀ r2, out2 = .reply r2 →
         (r2.output.head? = none ∨ r2.output_text.isEmpty = true) →
         POST_responses true reg provider body =
           ⟨errorResponse "Failed to get final response from OpenAI." 500, 2⟩) ∧
       (∀ r2, out2 = .reply r2 →
         r2.output.head?.isSome = true → r2.output_text.isEmpty = false →
         POST_responses true reg provider body =
           ⟨⟨200, .obj [("role", .str "assistant"), ("content", .str r2.output_text)]⟩, 2⟩)) := by
  constructor
  · intro reg provider body msgs c1 ch1 out2 hbody hne hval h1 hch htc h2
    have hne2 : msgs.isEmpty = false := by
      cases msgs with
      | nil => exact absurd rfl hne
      | cons a l => rfl
    have htc2 : ch1.message.tool_calls.isEmpty = false := by
      cases h : ch1.message.tool_calls with
      | nil => exact absurd h htc
      | cons a l => rfl
    cases out2 with
    | thrownRequest =>
      have hpost : POST_completions true reg provider body =
          ⟨errorResponse "Could not reach OpenAI service." 500, 2⟩ := by
        simp [POST_completions, hbody, hne2, hval, h1, hch, htc2, h2]
      refine ⟨by rw [hpost], fun _ => by rw [hpost]; rfl, ?_, ?_⟩
      · intro c2 h
        exact absurd h (by intro hh; exact CompletionOutcome.noConfusion hh)
      · intro c2 ch2 h
        exact absurd h (by intro hh; exact CompletionOutcome.noConfusion hh)
    | thrownOther =>
      have hpost : POST_completions true reg provider body =
          ⟨errorResponse "An error occurred while processing your request." 500, 2⟩ := by
        simp [POST_completions, hbody, hne2, hval, h1, hch, htc2, h2]
      refine ⟨by rw [hpost], fun _ => by rw [hpost]; rfl, ?_, ?_⟩
      · intro c2 h
        exact absurd h (by intro hh; exact CompletionOutcome.noConfusion hh)
      · intro c2 ch2 h
        exact absurd h (by intro hh; exact CompletionOutcome.noConfusion hh)
    | reply c2 =>
      cases hc2 : c2.choices.head? with
      | none =>
        have hpost : POST_completions true reg provider body =
            ⟨errorResponse "Failed to get final response from OpenAI." 500, 2⟩ := by
          simp [POST_completions, hbody, hne2, hval, h1, hch, htc2, h2, hc2]
        refine ⟨by rw [hpost], ?_, ?_, ?_⟩
        · intro h
          rcases h with h | h <;> exact CompletionOutcome.noConfusion h
        · intro c2' h _
          exact hpost
        · intro c2' ch2 h hch2
          injection h with he
          rw [← he] at hch2
          rw [hc2] at hch2
          exact Option.noConfusion hch2
      | some ch2 =>
        have hpost : POST_completions true reg provider body =
            ⟨⟨200, encodeAssistantMessage ch2.message⟩, 2⟩ := by
          simp [POST_completions, hbody, hne2, hval, h1, hch, htc2, h2, hc2]
        refine ⟨by rw [hpost], ?_, ?_, ?_⟩
        · intro h
          rcases h with h | h <;> exact CompletionOutcome.noConfusion h
        · intro c2' h hch2
          injection h with he
          rw [← he] at hch2
          rw [hc2] at hch2
          exact Option.noConfusion hch2
        · intro c2' ch2' h hch2
          injection h with he
          rw [← he] at hch2
          rw [hc2] at hch2
          rw [Option.some.inj hch2] at hpost
          exact hpost
  · intro reg provider body msgs r1 o1 out2 hbody hne hval h1 hch hfc h2
    have hne2 : msgs.isEmpty = false := by
      cases msgs with
      | nil => exact absurd rfl hne
      | cons a l => rfl
    have hty : (o1.type == "function_call") = true := by
      rw [hfc]; simp
    cases out2 with
    | thrownRequest =>
      have hpost : POST_responses true reg provider body =
          ⟨errorResponse "Could not reach OpenAI service." 500, 2⟩ := by
        simp [POST_responses, hbody, hne2, hval, h1, hch, hty, h2]
      refine ⟨by rw [hpost], fun _ => by rw [hpost]; rfl, ?_, ?_⟩
      · intro r2 h
        exact absurd h (by intro hh; exact ResponsesOutcome.noConfusion hh)
      · intro r2 h
        exact absurd h (by intro hh; exact ResponsesOutcome.noConfusion hh)
    | thrownOther =>
      have hpost : POST_responses true reg provider body =
          ⟨errorResponse "An error occurred while processing your request." 500, 2⟩ := by
        simp [POST_responses, hbody, hne2, hval, h1, hch, hty, h2]
      refine ⟨by rw [hpost], fun _ => by rw [hpost]; rfl, ?_, ?_⟩
      · intro r2 h
        exact absurd h (by intro hh; exact ResponsesOutcome.noConfusion hh)
      · intro r2 h
        exact absurd h (by intro hh; exact ResponsesOutcome.noConfusion hh)
    | reply r2 =>
      cases hcond : (r2.output.head?.isNone || r2.output_text.isEmpty) with
      | true =>
        have hpost : POST_responses true reg provider body =
            ⟨errorResponse "Failed to get final response from OpenAI." 500, 2⟩ := by
          simp [POST_responses, hbody, hne2, hval, h1, hch, hty, h2, hcond]
        refine ⟨by rw [hpost], ?_, ?_, ?_⟩
        · intro h
          rcases h with h | h <;> exact ResponsesOutcome.noConfusion h
        · intro r2' h _
          exact hpost
        · intro r2' h hsome hempty
          injection h with he
          rw [← he] at hsome hempty
          rw [hempty] at hcond
          have hnone : r2.output.head?.isNone = false := by
            cases hh : r2.output.head? with
            | none => rw [hh] at hsome; exact absurd hsome (by simp)
            | some x => rfl
          rw [hnone] at hcond
          exact absurd hcond (by simp)
      | false =>
        have hpost : POST_responses true reg provider body =
            ⟨⟨200, .obj [("role", .str "assistant"), ("content", .str r2.output_text)]⟩, 2⟩ := by
          simp [POST_responses, hbody, hne2, hval, h1, hch, hty, h2, hcond]
        refine ⟨by rw [hpost], ?_, ?_, ?_⟩
        · intro h
          rcases h with h | h <;> exact ResponsesOutcome.noConfusion h
        · intro r2' h hor
          injection h with he
          rw [← he] at hor
          rcases hor with hh | hh
          · rw [hh] at hcond
            exact absurd hcond (by simp)
          · rw [hh] at hcond
            exact absurd hcond (by simp)
        · intro r2' h _ _
          injection h with he
          rw [← he]
          exact hpost

/-- A provider whose first completion requests a tool call and whose
second completion is a plain text reply. -/
def c3RoundProvider : Nat → List Json → CompletionOutcome :=
  fun n _ =>
    match n with
    | 0 => .reply ⟨[⟨⟨.null, [c3ToolCall]⟩⟩]⟩
    | _ => .reply ⟨[⟨⟨.str "done", []⟩⟩]⟩

/-- Witness for C3's amended statement: a concrete tool round drives
the completions handler through exactly two provider calls, answering
with the second reply's message. -/
theorem one_tool_round_only_witness :
    (POST_completions true [] c3RoundProvider c3Body).providerCalls = 2 ∧
    POST_completions true [] c3RoundProvider c3Body =
      ⟨⟨200, encodeAssistantMessage ⟨.str "done", []⟩⟩, 2⟩ :=
  ⟨(one_tool_round_only.1 [] c3RoundProvider c3Body
      [.obj [("role", .str "user"), ("content", .str "hi")]]
      ⟨[⟨⟨.null, [c3ToolCall]⟩⟩]⟩ ⟨⟨.null, [c3ToolCall]⟩⟩
      (.reply ⟨[⟨⟨.str "done", []⟩⟩]⟩)
      rfl (by simp) rfl (fun _ => rfl) rfl (by simp) (fun _ => rfl)).1,
   (one_tool_round_only.1 [] c3RoundProvider c3Body
      [.obj [("role", .str "user"), ("content", .str "hi")]]
      ⟨[⟨⟨.null, [c3ToolCall]⟩⟩]⟩ ⟨⟨.null, [c3ToolCall]⟩⟩
      (.reply ⟨[⟨⟨.str "done", []⟩⟩]⟩)
      rfl (by simp) rfl (fun _ => rfl) rfl (by simp) (fun _ => rfl)).2.2.2
     ⟨[⟨⟨.str "done", []⟩⟩]⟩ ⟨⟨.str "done", []⟩⟩ rfl rfl⟩

end DishGenius
